import Mathlib

/-!
Verification development for the sarcasm-detection backend model-loading
subsystem (backend/models/loader.py and backend/models/inference.py).

The Python source is shallowly embedded: module-level mutable globals become
an explicit `LoaderState`, filesystem and deserialization outcomes become an
explicit environment record, and every Python exception path is made explicit
through `Except`.  Definitions keep the source names where Lean allows it.
-/

namespace SarcasmLoader

/-- Pattern `pat` is a prefix of `cs` (char-level, structural recursion so
that concrete instances reduce in the kernel). -/
def charsBeginWith : List Char → List Char → Bool
  | [], _ => true
  | _ :: _, [] => false
  | p :: ps, c :: cs => p == c && charsBeginWith ps cs

/-- Pattern `pat` occurs somewhere in `cs` (char-level substring test). -/
def charsContain (pat : List Char) : List Char → Bool
  | [] => pat.isEmpty
  | c :: cs => charsBeginWith pat (c :: cs) || charsContain pat cs

/-- Embedding of the Python substring test `sub in s` (used with nonempty
`sub` throughout the source). -/
def pyIn (sub s : String) : Bool :=
  charsContain sub.data s.data

/-- Embedding of Python str.startswith. -/
def pyStartsWith (s pre : String) : Bool :=
  charsBeginWith pre.data s.data

/-- Whitespace as stripped by Python str.strip (restricted to the ASCII
whitespace characters; the further Unicode whitespace Python also strips is
immaterial to every claim below). -/
def pyIsSpace (c : Char) : Bool :=
  c == ' ' || (9 ≤ c.toNat && c.toNat ≤ 13)

/-- Embedding of Python str.strip(). -/
def pyStrip (s : String) : String :=
  String.mk (((s.data.dropWhile pyIsSpace).reverse.dropWhile pyIsSpace).reverse)

/- Restricted unpickling: TRUSTED_MODULES, BLOCKED_CLASS_NAMES and
RestrictedUnpickler.find_class (loader.py lines 53-193). -/

/-- The frozen allow-list of trusted modules (loader.py TRUSTED_MODULES).
The Python source builds a `frozenset`; membership is all that is used. -/
def TRUSTED_MODULES : List String :=
  [ "sklearn.pipeline",
    "sklearn._config",
    "sklearn.base",
    "sklearn.feature_extraction.text",
    "sklearn.feature_extraction._hash",
    "sklearn.feature_extraction._stop_words",
    "sklearn.linear_model",
    "sklearn.linear_model._logistic",
    "sklearn.linear_model._base",
    "sklearn.svm",
    "sklearn.svm._base",
    "sklearn.svm._classes",
    "sklearn.ensemble",
    "sklearn.ensemble._voting",
    "sklearn.ensemble._base",
    "sklearn.ensemble._forest",
    "sklearn.ensemble._gb",
    "sklearn.calibration",
    "sklearn.naive_bayes",
    "sklearn.preprocessing",
    "sklearn.preprocessing._data",
    "sklearn.preprocessing._label",
    "sklearn.utils",
    "sklearn.utils._bunch",
    "sklearn.utils._tags",
    "sklearn.utils._param_validation",
    "sklearn.utils.metadata_routing",
    "numpy",
    "numpy.core",
    "numpy.core.multiarray",
    "numpy.core.numeric",
    "numpy._core",
    "numpy._core.multiarray",
    "numpy.dtypes",
    "numpy.random",
    "numpy.random._pickle",
    "scipy.sparse",
    "scipy.sparse._csr",
    "scipy.sparse._csc",
    "scipy.sparse._arrays",
    "scipy.sparse._matrix",
    "builtins",
    "collections",
    "copy_reg",
    "_codecs" ]

/-- The deny-list of dangerous callable names (loader.py BLOCKED_CLASS_NAMES). -/
def BLOCKED_CLASS_NAMES : List String :=
  [ "eval",
    "exec",
    "execfile",
    "compile",
    "__import__",
    "open",
    "file",
    "input",
    "raw_input",
    "reload",
    "exit",
    "quit",
    "loads",
    "load" ]

/-- The UnpicklingError message raised by find_class, identical for a blocked
class name and for an untrusted module (same f-string in both branches). -/
def untrustedBlockedMsg (module name : String) : String :=
  "Untrusted module blocked: " ++ module ++ "." ++ name ++
    ". Model file may be corrupted or malicious."

/-- Result of a successful find_class: delegation to the default resolution
(`super().find_class(module, name)` in the source). -/
inductive FindClassResult where
  | delegated (module name : String)
deriving DecidableEq

/-- Embedding of RestrictedUnpickler.find_class (loader.py lines 157-193).
An `Except.error` value is the raised `pickle.UnpicklingError`. -/
def find_class (module name : String) : Except String FindClassResult :=
  if BLOCKED_CLASS_NAMES.contains name then
    .error (untrustedBlockedMsg module name)
  else if TRUSTED_MODULES.contains module then
    .ok (.delegated module name)
  else
    .error (untrustedBlockedMsg module name)

/- Model validation: validate_sklearn_model (loader.py lines 270-296). -/

/-- The `steps` attribute of a duck-typed candidate model object.  `pairs`
is a well-formed pipeline step list (what sklearn Pipelines carry);
`malformed` is any object for which `len(model.steps)` or unpacking the
items of `model.steps` raises (e.g. an int, or a list of non-pairs). -/
inductive StepsAttr where
  | absent
  | pairs (steps : List (String × String))
  | malformed
deriving DecidableEq

/-- A duck-typed Python object as seen by validate_sklearn_model: only the
three attributes the function touches are relevant. -/
structure PyModelObj where
  has_predict_proba : Bool
  has_predict : Bool
  steps : StepsAttr
deriving DecidableEq

/-- Embedding of validate_sklearn_model (loader.py lines 270-296).  The two
`hasattr` capability checks return `false` early; when both capabilities are
present and a `steps` attribute exists, the debug-logging f-string evaluates
`len(model.steps)` and iterates `model.steps` unpacking pairs, which raises
(`Except.error`) on a malformed `steps` value since the function body has no
try/except. -/
def validate_sklearn_model (model : PyModelObj) : Except String Bool :=
  if !model.has_predict_proba then .ok false
  else if !model.has_predict then .ok false
  else
    match model.steps with
    | .absent => .ok true
    | .pairs _ => .ok true
    | .malformed => .error "TypeError"

/- Path validation and secure_load_pickle (loader.py lines 196-267). -/

/-- Python exceptions that secure_load_pickle can raise or re-raise. -/
inductive PyExn where
  | unpicklingError (msg : String)
  | valueError (msg : String)
  | fileNotFound
  | otherExn
deriving DecidableEq

/-- Embedding of the traversal-pattern test in secure_load_pickle
(loader.py lines 221-227): the source rejects exactly an infix slash-dotdot-
slash, a leading dotdot-slash or dotdot-backslash, an infix backslash-dotdot-
backslash, or the exact string dotdot; it deliberately allows filenames that
merely contain two dots (source comment: allows my..file.txt). -/
def has_traversal (filepath : String) : Bool :=
  pyIn "/../" filepath
    || pyStartsWith filepath "../"
    || pyStartsWith filepath "..\\"
    || pyIn "\\..\\" filepath
    || filepath == ".."

/-- Char-level split on a separator character (structural recursion). -/
def splitOnChar (sep : Char) : List Char → List (List Char)
  | [] => [[]]
  | c :: cs =>
      let r := splitOnChar sep cs
      if c == sep then [] :: r
      else
        match r with
        | h :: t => (c :: h) :: t
        | [] => [[c]]

/-- Path components in the sense of posixpath.commonpath: split on the
separator, dropping empty components and single-dot components. -/
def pathComponents (p : String) : List String :=
  ((splitOnChar '/' p.data).map String.mk).filter (fun c => c ≠ "" && c ≠ ".")

/-- Longest common prefix of two component lists (the component-level core of
os.path.commonpath for two same-drive absolute paths). -/
def commonComponents : List String → List String → List String
  | a :: as, b :: bs => if a = b then a :: commonComponents as bs else []
  | _, _ => []

/-- Filesystem-dependent inputs of path validation: `realpath` is the symlink
resolution oracle os.path.realpath, and `expected_dir` is the already-resolved
model-storage directory os.path.realpath(os.path.dirname(PROSODIC_MODEL_PATH)).
Outputs of realpath are canonical absolute paths, so the source string
comparison `common != expected_dir` is compared at component level. -/
structure PathEnv where
  realpath : String → String
  expected_dir : String

/-- Embedding of the path-validation block of secure_load_pickle (loader.py
lines 218-256), run when `skip_path_validation` is false. -/
def validate_model_path (env : PathEnv) (filepath : String) : Except String Unit :=
  if has_traversal filepath then
    .error "Invalid filepath: path traversal detected"
  else if pyStartsWith filepath "/" then
    let resolved := env.realpath filepath
    if commonComponents (pathComponents resolved) (pathComponents env.expected_dir)
        ≠ pathComponents env.expected_dir then
      .error "Invalid filepath: path outside allowed directory"
    else
      .ok ()
  else
    .ok ()

/-- A loaded model artifact (opaque to the loader beyond identity). -/
structure Artifact where
  id : Nat
deriving DecidableEq

/-- Embedding of secure_load_pickle (loader.py lines 196-267).  `fs` is the
oracle for the whole open-and-unpickle block including its except clauses
(FileNotFoundError re-raised, OSError mapped to ValueError, UnpicklingError
from RestrictedUnpickler propagated); it is consulted only after the filepath
checks pass, so a validation failure raises before the file is opened. -/
def secure_load_pickle (env : PathEnv) (fs : String → Except PyExn Artifact)
    (filepath : String) (skip_path_validation : Bool) : Except PyExn Artifact :=
  if filepath = "" then
    .error (.valueError "Invalid filepath: must be a non-empty string")
  else if !skip_path_validation then
    match validate_model_path env filepath with
    | .error e => .error (.valueError e)
    | .ok () => fs filepath
  else
    fs filepath

/- Ordered locks (loader.py lines 344-491): OrderedLock, _validate_lock_order,
acquire, release, and the three module-level lock instances. -/

/-- An OrderedLock instance: a name for error messages and a hierarchy
priority (loader.py OrderedLock.__init__). -/
structure OrderedLock where
  name : String
  order : Int
deriving DecidableEq

/-- The canonical lock ordering block embedded in the violation message
(loader.py lines 416-419). -/
def canonicalLockOrderText : String :=
  "Required lock order (lowest to highest):\n" ++
  "  1. _lexical_model_lock (order=1)\n" ++
  "  2. _prosodic_model_lock (order=2)\n" ++
  "  3. _onnx_session_lock (order=3)\n"

/-- The 60-character separator line of the violation message. -/
def eqBar : String := String.mk (List.replicate 60 (Char.ofNat 61))

/-- Fixed message text of the violation error up to the held lock name. -/
def lockErrPart1 : String :=
  "\n" ++ eqBar ++ "\n" ++
  "LOCK ORDERING VIOLATION DETECTED\n" ++ eqBar ++ "\n" ++
  "Attempting to acquire locks in wrong order!\n\nCurrently holding: "

/-- Fixed message text between a lock name and its printed order. -/
def lockErrPart2 : String := " (order="

/-- Fixed message text between the held lock order and the requested name. -/
def lockErrPart3 : String := ")\nTrying to acquire: "

/-- Fixed message text after the requested lock order. -/
def lockErrPart4 : String :=
  ")\n\nThis violates the required lock ordering and can cause deadlock.\n\n"

/-- Fixed closing text of the violation error. -/
def lockErrPart5 : String :=
  "\nFix: Reorder your lock acquisitions to follow this hierarchy.\n" ++
  eqBar ++ "\n"

/-- The LockOrderingError message built in _validate_lock_order
(loader.py lines 404-423), for a held lock and the requested lock. -/
def lockOrderingErrorMsg (held req : OrderedLock) : String :=
  lockErrPart1 ++ held.name ++ lockErrPart2 ++ toString held.order ++
    lockErrPart3 ++ req.name ++ lockErrPart2 ++ toString req.order ++
    lockErrPart4 ++ canonicalLockOrderText ++ lockErrPart5

/-- Embedding of OrderedLock._validate_lock_order (loader.py lines 387-425):
with validation enabled, scan the thread-local held-lock list and raise a
LockOrderingError at the first held lock of strictly greater priority. -/
def _validate_lock_order (enabled : Bool) (held : List OrderedLock)
    (l : OrderedLock) : Except String Unit :=
  if !enabled then .ok ()
  else
    match held.find? (fun h => decide (h.order > l.order)) with
    | some h => .error (lockOrderingErrorMsg h l)
    | none => .ok ()

/-- Embedding of OrderedLock.acquire (loader.py lines 427-451).  `underlying`
is the outcome of acquiring the wrapped threading.Lock with the caller-chosen
blocking/timeout arguments.  On success the lock is appended to the held list
(only when validation is enabled, as in the source); the returned Bool is the
acquired flag. -/
def acquire (enabled : Bool) (held : List OrderedLock) (l : OrderedLock)
    (underlying : Bool) : Except String (List OrderedLock × Bool) :=
  match _validate_lock_order enabled held l with
  | .error e => .error e
  | .ok _ =>
      if underlying && enabled then .ok (held ++ [l], underlying)
      else .ok (held, underlying)

/-- Embedding of OrderedLock.release (loader.py lines 453-461): remove this
lock from the held list by identity (Python list.remove removes the first
occurrence; the source guards with a membership test, and List.erase on an
absent element is the identity). -/
def release (enabled : Bool) (held : List OrderedLock) (l : OrderedLock) :
    List OrderedLock :=
  if enabled then held.erase l else held

/-- The three module-level lock instances (loader.py lines 489-491). -/
def _lexical_model_lock : OrderedLock := ⟨"_lexical_model_lock", 1⟩

def _prosodic_model_lock : OrderedLock := ⟨"_prosodic_model_lock", 2⟩

def _onnx_session_lock : OrderedLock := ⟨"_onnx_session_lock", 3⟩

def systemLocks : List OrderedLock :=
  [_lexical_model_lock, _prosodic_model_lock, _onnx_session_lock]

/- Per-thread trace semantics of ordered-lock usage. -/

/-- One lock operation performed by a thread: an acquire attempt (with the
outcome of the underlying primitive) or a release. -/
inductive LockEvent where
  | acq (l : OrderedLock) (underlying : Bool)
  | rel (l : OrderedLock)
deriving DecidableEq

/-- The lock an event refers to. -/
def eventLock : LockEvent → OrderedLock
  | .acq l _ => l
  | .rel l => l

/-- Effect of one event on the thread-local held-lock list, with validation
enabled.  A raised LockOrderingError leaves the list unchanged (the source
raises before acquiring or pushing); the exception itself is outside the
per-thread stack state. -/
def lockStep (held : List OrderedLock) : LockEvent → List OrderedLock
  | .acq l u =>
      match acquire true held l u with
      | .ok (held', _) => held'
      | .error _ => held
  | .rel l => release true held l

/-- Held-lock list after a thread performs a sequence of lock events. -/
def runTrace (held : List OrderedLock) (events : List LockEvent) :
    List OrderedLock :=
  events.foldl lockStep held

/-- The underlying threading.Lock is not reentrant: an acquire of a lock the
thread already holds can never report success (it would block forever or time
out).  This checks one event against the current held list. -/
def eventReentrantOk (held : List OrderedLock) : LockEvent → Bool
  | .acq l true => !(held.contains l)
  | _ => true

/-- A trace respects non-reentrancy of the underlying primitives, starting
from a given held list. -/
def nonReentrant (held : List OrderedLock) : List LockEvent → Bool
  | [] => true
  | e :: es => eventReentrantOk held e && nonReentrant (lockStep held e) es

/- Model registry / lazy loader (loader.py lines 493-775).  The module-level
globals _lexical_model, _prosodic_model, _onnx_session together with the
calling thread's held-lock list form the explicit state; filesystem and
deserialization outcomes form the environment. -/

/-- An ONNX Runtime inference session (opaque beyond identity). -/
structure Session where
  id : Nat
deriving DecidableEq

/-- The mutable module-level state of loader.py as seen by one thread:
the three resource slots plus the thread-local held-lock list. -/
structure LoaderState where
  lexical_model : Option Artifact
  prosodic_model : Option Artifact
  onnx_session : Option Session
  held : List OrderedLock
deriving DecidableEq

/-- State at process start: every slot unloaded, no locks held. -/
def initLoaderState : LoaderState := ⟨none, none, none, []⟩

/-- The environment of one load attempt: which files exist, whether ONNX
Runtime imported, the outcome of each secure_load_pickle call, the outcome of
ort.InferenceSession creation (`none` covers both a raised exception and a
None session), the validate_sklearn_model verdict on a loaded artifact, and
whether lock-ordering validation is enabled (_ENABLE_LOCK_ORDERING_VALIDATION). -/
structure LoaderEnv where
  lexical_path_exists : Bool
  prosodic_path_exists : Bool
  onnx_path_exists : Bool
  onnx_available : Bool
  lexical_pickle : Except PyExn Artifact
  prosodic_pickle : Except PyExn Artifact
  onnx_create : Option Session
  validate_model : Artifact → Bool
  validation_enabled : Bool

/-- Kinds of expensive load work, for the at-most-once accounting. -/
inductive ResKind where
  | lexKind
  | onnxKind
  | prosKind
deriving DecidableEq

/-- Observable effects of a load call: lock operations on the underlying
primitives and executions of the expensive load work (file read plus
deserialization plus validation attempt). -/
inductive LoadEvent where
  | lockAcq (l : OrderedLock)
  | lockRel (l : OrderedLock)
  | expensiveLoad (which : ResKind)
deriving DecidableEq

/-- Result of a load call: the final state, either a returned Bool or a
propagated exception message (`Except.error` is the raised LockOrderingError),
and the effects performed. -/
structure LoadOutcome where
  state : LoaderState
  result : Except String Bool
  events : List LoadEvent

/-- Embedding of a `with lock:` block in the loader.  Acquire validates lock
ordering first and raises without touching anything on a violation; otherwise
the underlying primitive is acquired (the sequential embedding assumes the
blocking acquire returns), the body runs with the lock pushed on the held
list when validation is enabled, and the lock is released on every exit path
(the context manager releases also when the body raises). -/
def withLock (enabled : Bool) (l : OrderedLock) (s : LoaderState)
    (body : LoaderState → LoadOutcome) : LoadOutcome :=
  match _validate_lock_order enabled s.held l with
  | .error e => ⟨s, .error e, []⟩
  | .ok _ =>
      let out := body { s with held := if enabled then s.held ++ [l] else s.held }
      ⟨{ out.state with held := release enabled out.state.held l },
        out.result,
        .lockAcq l :: (out.events ++ [.lockRel l])⟩

/-- Embedding of load_lexical_model (loader.py lines 585-633): fast path
without the lock, double-checked re-test inside the lock, missing-file early
return, then the try block around secure_load_pickle and validation, whose
except clauses turn every load failure into a false return. -/
def load_lexical_model (env : LoaderEnv) (s : LoaderState) : LoadOutcome :=
  if s.lexical_model.isSome then ⟨s, .ok true, []⟩
  else
    withLock env.validation_enabled _lexical_model_lock s fun s1 =>
      if s1.lexical_model.isSome then ⟨s1, .ok true, []⟩
      else if !env.lexical_path_exists then ⟨s1, .ok false, []⟩
      else
        match env.lexical_pickle with
        | .error _ => ⟨s1, .ok false, [.expensiveLoad .lexKind]⟩
        | .ok m =>
            if !env.validate_model m then ⟨s1, .ok false, [.expensiveLoad .lexKind]⟩
            else ⟨{ s1 with lexical_model := some m }, .ok true, [.expensiveLoad .lexKind]⟩

/-- Embedding of load_onnx_model (loader.py lines 636-695): fast path, lock,
double-check, ONNX-availability and file checks, then session creation whose
except clause resets the slot to None and returns false.  `env.onnx_create =
none` covers both a raised exception and a created-but-None session. -/
def load_onnx_model (env : LoaderEnv) (s : LoaderState) : LoadOutcome :=
  if s.onnx_session.isSome then ⟨s, .ok true, []⟩
  else
    withLock env.validation_enabled _onnx_session_lock s fun s1 =>
      if s1.onnx_session.isSome then ⟨s1, .ok true, []⟩
      else if !env.onnx_available then ⟨s1, .ok false, []⟩
      else if !env.onnx_path_exists then ⟨s1, .ok false, []⟩
      else
        match env.onnx_create with
        | none => ⟨{ s1 with onnx_session := none }, .ok false, [.expensiveLoad .onnxKind]⟩
        | some sess =>
            ⟨{ s1 with onnx_session := some sess }, .ok true, [.expensiveLoad .onnxKind]⟩

/-- Body of the with-lock block of load_prosodic_models (loader.py lines
724-773), run while holding _prosodic_model_lock: double-check of both slots,
the reset of the classifier slot when it is loaded while the ONNX session is
missing, the nested load_onnx_model call (whose LockOrderingError, if any,
propagates), the session re-verification, and the try block around the
classifier pickle load whose except clauses turn failures into a false
return. -/
def load_prosodic_locked (env : LoaderEnv) (s1 : LoaderState) : LoadOutcome :=
  if s1.prosodic_model.isSome && s1.onnx_session.isSome then ⟨s1, .ok true, []⟩
  else
    let s2 := if s1.prosodic_model.isSome && !s1.onnx_session.isSome
              then { s1 with prosodic_model := none } else s1
    let out := load_onnx_model env s2
    match out.result with
    | .error e => ⟨out.state, .error e, out.events⟩
    | .ok false => ⟨out.state, .ok false, out.events⟩
    | .ok true =>
        let s3 := out.state
        if !s3.onnx_session.isSome then ⟨s3, .ok false, out.events⟩
        else if !env.prosodic_path_exists then ⟨s3, .ok false, out.events⟩
        else
          match env.prosodic_pickle with
          | .error _ => ⟨s3, .ok false, out.events ++ [.expensiveLoad .prosKind]⟩
          | .ok m =>
              if !env.validate_model m then
                ⟨s3, .ok false, out.events ++ [.expensiveLoad .prosKind]⟩
              else
                ⟨{ s3 with prosodic_model := some m }, .ok true,
                  out.events ++ [.expensiveLoad .prosKind]⟩

/-- Embedding of load_prosodic_models (loader.py lines 698-775): fast path
reading both slots without the lock, then the locked body above. -/
def load_prosodic_models (env : LoaderEnv) (s : LoaderState) : LoadOutcome :=
  if s.prosodic_model.isSome && s.onnx_session.isSome then ⟨s, .ok true, []⟩
  else
    withLock env.validation_enabled _prosodic_model_lock s (load_prosodic_locked env)

/-- The three public load entry points, as operations on the loader state. -/
inductive LoaderOp where
  | lexOp
  | onnxOp
  | prosOp
deriving DecidableEq

/-- Final state after one load call (whether it returned or raised). -/
def runOp : LoaderOp → LoaderEnv → LoaderState → LoaderState
  | .lexOp, env, s => (load_lexical_model env s).state
  | .onnxOp, env, s => (load_onnx_model env s).state
  | .prosOp, env, s => (load_prosodic_models env s).state

/-- Loader states reachable from process start by any sequence of load calls
under arbitrary environments. -/
inductive ReachableL : LoaderState → Prop
  | init : ReachableL initLoaderState
  | step (op : LoaderOp) (env : LoaderEnv) {s : LoaderState} :
      ReachableL s → ReachableL (runOp op env s)

/- Inference facade: lexical_predict and prosodic_predict
(backend/models/inference.py lines 19-148). -/

/-- Outcome of a model.predict_proba call.  `raises` covers any exception the
call itself raises, and also a returned object without a usable shape
attribute (the subsequent attribute access raises AttributeError, caught by
the same except clauses).  `returns shape entry` is a returned array with the
given shape; `entry` is the value of `float(proba[0][1])` when that
extraction succeeds, and `none` when it raises.  Probability values are
embedded as rationals: the only score the facade manufactures itself, 0.5,
is exact, and the range test keeps its shape. -/
inductive ProbaOutcome where
  | raises
  | returns (shape : Nat × Nat) (entry : Option ℚ)

/-- Environment of one lexical_predict call: the outcome of the
load_lexical_model() call made at inference.py line 36 — that call sits
outside the try/except, so when the loader raises (a LockOrderingError in
development mode with a higher-priority lock held, see the loader embedding)
the exception propagates out of lexical_predict, hence `Except String Bool`
rather than a plain Bool — whether get_lexical_model returned a non-None
model (a plain global read, which cannot raise), and the behavior of that
model on the (stripped) input text. -/
structure LexicalEnv where
  load_result : Except String Bool
  model_present : Bool
  predict_proba : String → ProbaOutcome

/-- The text argument of lexical_predict: a Python str or any other object. -/
inductive TextInput where
  | str (s : String)
  | nonStr

/-- Embedding of lexical_predict (inference.py lines 19-78).  The isinstance
check precedes the loader call, so a non-string input returns the fallback
before the loader can raise; a raised loader exception then propagates
(`Except.error`), the loader call being outside the try/except.  Every raise
inside the try block is caught by the two except clauses and falls through to
the neutral fallback; the returned value is the (score, is_real_prediction)
pair. -/
def lexical_predict (env : LexicalEnv) (input : TextInput) :
    Except String (ℚ × Bool) :=
  match input with
  | .nonStr => .ok ((1 : ℚ) / 2, false)
  | .str text =>
      match env.load_result with
      | .error e => .error e
      | .ok model_loaded =>
          if model_loaded && env.model_present then
            let text := pyStrip text
            if text = "" then .ok ((1 : ℚ) / 2, false)
            else
              match env.predict_proba text with
              | .raises => .ok ((1 : ℚ) / 2, false)
              | .returns shape entry =>
                  if shape ≠ (1, 2) then .ok ((1 : ℚ) / 2, false)
                  else
                    match entry with
                    | none => .ok ((1 : ℚ) / 2, false)
                    | some score =>
                        if !(0 ≤ score ∧ score ≤ 1 : Bool) then
                          .ok ((1 : ℚ) / 2, false)
                        else .ok (score, true)
          else .ok ((1 : ℚ) / 2, false)

/-- The embedding argument of prosodic_predict: a numpy ndarray with the
given shape, or any other object (the isinstance check raises ValueError,
caught below). -/
inductive EmbeddingInput where
  | arr (shape : List Nat)
  | nonArr

/-- Environment of one prosodic_predict call: the outcome of the
load_prosodic_models() call made at inference.py line 93 — outside the
try/except, so a raised loader exception propagates out of prosodic_predict
(`Except String Bool`, as for the lexical facade) — whether
get_prosodic_model returned a non-None model, and the model behavior on the
reshaped (1, 768) embedding. -/
structure ProsodicEnv where
  load_result : Except String Bool
  model_present : Bool
  predict_proba : ProbaOutcome

/-- Embedding of prosodic_predict (inference.py lines 81-148).  The loader
call is the first statement, so a raised loader exception propagates before
any input validation; the input type and shape checks, the dtype cast (no
observable effect here), the predict_proba call and its shape and range
validations all live in the try block whose except clauses produce the
neutral fallback. -/
def prosodic_predict (env : ProsodicEnv) (input : EmbeddingInput) :
    Except String (ℚ × Bool) :=
  match env.load_result with
  | .error e => .error e
  | .ok models_loaded =>
      if models_loaded && env.model_present then
        match input with
        | .nonArr => .ok ((1 : ℚ) / 2, false)
        | .arr shape =>
            if shape ≠ [768] then .ok ((1 : ℚ) / 2, false)
            else
              match env.predict_proba with
              | .raises => .ok ((1 : ℚ) / 2, false)
              | .returns pshape entry =>
                  if pshape ≠ (1, 2) then .ok ((1 : ℚ) / 2, false)
                  else
                    match entry with
                    | none => .ok ((1 : ℚ) / 2, false)
                    | some score =>
                        if !(0 ≤ score ∧ score ≤ 1 : Bool) then
                          .ok ((1 : ℚ) / 2, false)
                        else .ok (score, true)
      else .ok ((1 : ℚ) / 2, false)

/- Auxiliary definitions used by the verification below (well-formedness
predicates and concrete environments for witnesses and counterexamples). -/

instance : IsTrans OrderedLock (fun a b => a.order < b.order) :=
  ⟨fun _ _ _ h1 h2 => lt_trans h1 h2⟩

/-- A well-formed per-thread held-lock list: every entry is one of the three
module-level locks and priorities are strictly increasing along the list. -/
def GoodStack (held : List OrderedLock) : Prop :=
  (∀ h ∈ held, h ∈ systemLocks) ∧ List.Chain' (fun a b => a.order < b.order) held

/-- The cross-resource invariant: a loaded prosodic classifier implies a
loaded ONNX session. -/
def Consistent (s : LoaderState) : Prop :=
  s.prosodic_model.isSome → s.onnx_session.isSome

/-- A candidate model object with both prediction capabilities but a
malformed steps attribute (e.g. an int). -/
def stepsMalformedObj : PyModelObj := ⟨true, true, .malformed⟩

/-- A concrete path environment: identity symlink resolution, model storage
under /app/models. -/
def c5PathEnv : PathEnv := ⟨fun p => p, "/app/models"⟩

/-- A file oracle under which every open-and-unpickle succeeds. -/
def c5GoodFs : String → Except PyExn Artifact := fun _ => .ok ⟨7⟩

/-- The sanctioned nested locking pattern of load_prosodic_models:
classifier lock, then session lock, released in reverse order. -/
def c7Events : List LockEvent :=
  [.acq _prosodic_model_lock true, .acq _onnx_session_lock true,
   .rel _onnx_session_lock, .rel _prosodic_model_lock]

/-- Environment with no model files present and ordering validation off. -/
def offEnv : LoaderEnv :=
  { lexical_path_exists := false, prosodic_path_exists := false,
    onnx_path_exists := false, onnx_available := false,
    lexical_pickle := .error .fileNotFound, prosodic_pickle := .error .fileNotFound,
    onnx_create := none, validate_model := fun _ => true,
    validation_enabled := false }

/-- Environment with no model files present and ordering validation on
(the development default, FLASK_ENV not equal to production). -/
def cexEnv : LoaderEnv :=
  { lexical_path_exists := false, prosodic_path_exists := false,
    onnx_path_exists := false, onnx_available := false,
    lexical_pickle := .error .fileNotFound, prosodic_pickle := .error .fileNotFound,
    onnx_create := none, validate_model := fun _ => true,
    validation_enabled := true }

/-- State of a thread that already holds the ONNX session lock. -/
def cexHeldState : LoaderState := ⟨none, none, none, [_onnx_session_lock]⟩

/-- Environment of a lexical_predict call with the loader returning false
(model unavailable, no exception). -/
def c2LexEnvDown : LexicalEnv := ⟨.ok false, false, fun _ => .raises⟩

/-- Environment of a prosodic_predict call with the loader returning false
(models unavailable, no exception). -/
def c2ProsEnvDown : ProsodicEnv := ⟨.ok false, false, .raises⟩

/-- Facade environment whose loader-call outcome is the actual result of
load_lexical_model in development mode from a thread already holding the
ONNX session lock (a raised LockOrderingError). -/
def c2RaisingLexEnv : LexicalEnv :=
  ⟨(load_lexical_model cexEnv cexHeldState).result, false, fun _ => .raises⟩

/-- Facade environment whose loader-call outcome is the actual result of
load_prosodic_models in development mode from a thread already holding the
ONNX session lock (a raised LockOrderingError). -/
def c2RaisingProsEnv : ProsodicEnv :=
  ⟨(load_prosodic_models cexEnv cexHeldState).result, false, .raises⟩

/- Helper lemmas. -/

lemma systemLocks_order_inj :
    ∀ a ∈ systemLocks, ∀ b ∈ systemLocks, a.order = b.order → a = b := by decide

lemma validate_ok_bound {held : List OrderedLock} {l : OrderedLock}
    (h : _validate_lock_order true held l = .ok ()) :
    ∀ x ∈ held, x.order ≤ l.order := by
  intro x hx
  unfold _validate_lock_order at h
  simp only [Bool.not_true, Bool.false_eq_true, if_false] at h
  cases hf : held.find? (fun h => decide (h.order > l.order)) with
  | some h0 => rw [hf] at h; exact absurd h (by simp)
  | none =>
      have := List.find?_eq_none.1 hf x hx
      simpa using this

lemma acquire_ok_validate {held : List OrderedLock} {l : OrderedLock} {u : Bool}
    {r : List OrderedLock × Bool} (h : acquire true held l u = .ok r) :
    _validate_lock_order true held l = .ok () := by
  unfold acquire at h
  cases hv : _validate_lock_order true held l with
  | error e => rw [hv] at h; exact absurd h (by simp)
  | ok v => rfl

lemma goodStack_append {held : List OrderedLock} {l : OrderedLock}
    (hg : GoodStack held) (hl : l ∈ systemLocks) (hnotin : l ∉ held)
    (hbound : ∀ x ∈ held, x.order ≤ l.order) : GoodStack (held ++ [l]) := by
  constructor
  · intro x hx
    rcases List.mem_append.1 hx with hx | hx
    · exact hg.1 x hx
    · rw [List.mem_singleton] at hx
      subst hx
      exact hl
  · rw [List.chain'_append]
    refine ⟨hg.2, List.chain'_singleton l, ?_⟩
    intro x hx y hy
    simp only [List.head?_cons, Option.mem_def, Option.some.injEq] at hy
    subst hy
    have hxmem : x ∈ held := List.mem_of_mem_getLast? hx
    rcases lt_or_eq_of_le (hbound x hxmem) with hlt | heq
    · exact hlt
    · exact absurd (systemLocks_order_inj x (hg.1 x hxmem) l hl heq)
        (fun hxl => hnotin (hxl ▸ hxmem))

lemma lockStep_good {held : List OrderedLock} {e : LockEvent}
    (hg : GoodStack held) (hsys : eventLock e ∈ systemLocks)
    (hnr : ∀ l, e = .acq l true → l ∉ held) :
    GoodStack (lockStep held e) := by
  rcases e with ⟨l, u⟩ | l
  · cases hv : _validate_lock_order true held l with
    | error e => simpa [lockStep, acquire, hv] using hg
    | ok v =>
        cases v
        cases u with
        | false => simpa [lockStep, acquire, hv] using hg
        | true =>
            have hred : lockStep held (.acq l true) = held ++ [l] := by
              simp [lockStep, acquire, hv]
            rw [hred]
            exact goodStack_append hg hsys (hnr l rfl) (validate_ok_bound hv)
  · have hred : lockStep held (.rel l) = held.erase l := by
      simp [lockStep, release]
    rw [hred]
    constructor
    · intro x hx
      exact hg.1 x (List.erase_subset _ _ hx)
    · exact hg.2.sublist (List.erase_sublist l held)

lemma runTrace_good (events : List LockEvent) : ∀ held : List OrderedLock,
    GoodStack held → (∀ e ∈ events, eventLock e ∈ systemLocks) →
    nonReentrant held events = true → GoodStack (runTrace held events) := by
  induction events with
  | nil => intro held hg _ _; exact hg
  | cons e es ih =>
      intro held hg hsys hnr
      rw [nonReentrant, Bool.and_eq_true] at hnr
      have hstep : GoodStack (lockStep held e) := by
        refine lockStep_good hg (hsys e (List.mem_cons_self e es)) ?_
        intro l hl
        subst hl
        have h1 := hnr.1
        simp [eventReentrantOk] at h1
        exact h1
      exact ih (lockStep held e) hstep
        (fun e' he' => hsys e' (List.mem_cons_of_mem _ he')) hnr.2

lemma release_top_pop {held : List OrderedLock} {l : OrderedLock}
    (hchain : List.Chain' (fun a b => a.order < b.order) held)
    (hlast : held.getLast? = some l) :
    release true held l = held.dropLast := by
  have hdecomp : held.dropLast ++ [l] = held := List.dropLast_append_getLast? l hlast
  have hpw : held.Pairwise (fun a b => a.order < b.order) :=
    List.chain'_iff_pairwise.mp hchain
  have hnotin : l ∉ held.dropLast := by
    intro hmem
    rw [← hdecomp] at hpw
    have := (List.pairwise_append.mp hpw).2.2 l hmem l (List.mem_singleton_self l)
    exact lt_irrefl _ this
  show held.erase l = held.dropLast
  conv_lhs => rw [← hdecomp]
  rw [List.erase_append_right _ hnotin, List.erase_cons_head, List.append_nil]

lemma lexical_predict_total (env : LexicalEnv) (t : TextInput) (b : Bool)
    (hload : env.load_result = .ok b) :
    lexical_predict env t = .ok ((1 : ℚ) / 2, false) ∨
      ∃ p : ℚ, 0 ≤ p ∧ p ≤ 1 ∧ lexical_predict env t = .ok (p, true) := by
  unfold lexical_predict
  rcases t with s | _
  · rw [hload]
    by_cases h : (b && env.model_present) = true
    · simp only [h, if_true]
      by_cases he : pyStrip s = ""
      · simp [he]
      · simp only [he, if_false]
        rcases hp : env.predict_proba (pyStrip s) with _ | ⟨sh, ent⟩
        · simp
        · by_cases hsh : sh = (1, 2)
          · subst hsh
            rcases ent with _ | p
            · simp
            · by_cases hr : (0 ≤ p ∧ p ≤ 1)
              · right
                exact ⟨p, hr.1, hr.2, by simp [hr]⟩
              · simp [hr]
          · simp [hsh]
    · simp only [Bool.not_eq_true] at h
      simp [h]
  · simp

lemma prosodic_predict_total (env : ProsodicEnv) (e : EmbeddingInput) (b : Bool)
    (hload : env.load_result = .ok b) :
    prosodic_predict env e = .ok ((1 : ℚ) / 2, false) ∨
      ∃ p : ℚ, 0 ≤ p ∧ p ≤ 1 ∧ prosodic_predict env e = .ok (p, true) := by
  unfold prosodic_predict
  rw [hload]
  by_cases h : (b && env.model_present) = true
  · simp only [h, if_true]
    rcases e with sh | _
    · by_cases hsh : sh = [768]
      · subst hsh
        simp only [ne_eq, not_true_eq_false, if_false]
        rcases hp : env.predict_proba with _ | ⟨psh, ent⟩
        · simp
        · by_cases hpsh : psh = (1, 2)
          · subst hpsh
            rcases ent with _ | p
            · simp
            · by_cases hr : (0 ≤ p ∧ p ≤ 1)
              · right
                exact ⟨p, hr.1, hr.2, by simp [hr]⟩
              · simp [hr]
          · simp [hpsh]
      · simp [hsh]
    · simp
  · simp only [Bool.not_eq_true] at h
    simp [h]

lemma load_lexical_other_slots (env : LoaderEnv) (s : LoaderState) :
    (load_lexical_model env s).state.prosodic_model = s.prosodic_model ∧
    (load_lexical_model env s).state.onnx_session = s.onnx_session := by
  unfold load_lexical_model withLock
  dsimp only
  repeat' split
  all_goals simp

lemma load_lexical_fast_path (env : LoaderEnv) (s : LoaderState)
    (h : s.lexical_model.isSome) :
    load_lexical_model env s = ⟨s, .ok true, []⟩ := by
  unfold load_lexical_model
  simp [h]

lemma load_lexical_ok_true_some (env : LoaderEnv) (s : LoaderState)
    (h : (load_lexical_model env s).result = .ok true) :
    (load_lexical_model env s).state.lexical_model.isSome := by
  revert h
  unfold load_lexical_model withLock
  dsimp only
  repeat' split
  all_goals simp_all

lemma load_lexical_ok_false_none (env : LoaderEnv) (s : LoaderState)
    (h : (load_lexical_model env s).result = .ok false) :
    (load_lexical_model env s).state.lexical_model = none := by
  cases hsl : s.lexical_model with
  | some a =>
      rw [load_lexical_fast_path env s (by simp [hsl])] at h
      simp at h
  | none =>
      revert h
      unfold load_lexical_model withLock
      dsimp only
      simp only [hsl]
      repeat' split
      all_goals simp_all

lemma load_lexical_preserves (env : LoaderEnv) (s : LoaderState) (a : Artifact)
    (h : s.lexical_model = some a) :
    (load_lexical_model env s).state.lexical_model = some a := by
  rw [load_lexical_fast_path env s (by simp [h])]
  exact h

lemma load_lexical_no_raise (env : LoaderEnv) (s : LoaderState)
    (h : _validate_lock_order env.validation_enabled s.held _lexical_model_lock
      = .ok ()) :
    ∃ b, (load_lexical_model env s).result = .ok b := by
  unfold load_lexical_model withLock
  dsimp only
  rw [h]
  repeat' split
  all_goals simp_all

lemma load_onnx_other_slots (env : LoaderEnv) (s : LoaderState) :
    (load_onnx_model env s).state.lexical_model = s.lexical_model ∧
    (load_onnx_model env s).state.prosodic_model = s.prosodic_model := by
  unfold load_onnx_model withLock
  dsimp only
  repeat' split
  all_goals simp

lemma load_onnx_fast_path (env : LoaderEnv) (s : LoaderState)
    (h : s.onnx_session.isSome) :
    load_onnx_model env s = ⟨s, .ok true, []⟩ := by
  unfold load_onnx_model
  simp [h]

lemma load_onnx_ok_true_some (env : LoaderEnv) (s : LoaderState)
    (h : (load_onnx_model env s).result = .ok true) :
    (load_onnx_model env s).state.onnx_session.isSome := by
  revert h
  unfold load_onnx_model withLock
  dsimp only
  repeat' split
  all_goals simp_all

lemma load_onnx_ok_false_none (env : LoaderEnv) (s : LoaderState)
    (h : (load_onnx_model env s).result = .ok false) :
    (load_onnx_model env s).state.onnx_session = none := by
  cases hso : s.onnx_session with
  | some a =>
      rw [load_onnx_fast_path env s (by simp [hso])] at h
      simp at h
  | none =>
      revert h
      unfold load_onnx_model withLock
      dsimp only
      simp only [hso]
      repeat' split
      all_goals simp_all

lemma load_onnx_preserves (env : LoaderEnv) (s : LoaderState) (a : Session)
    (h : s.onnx_session = some a) :
    (load_onnx_model env s).state.onnx_session = some a := by
  rw [load_onnx_fast_path env s (by simp [h])]
  exact h

lemma load_onnx_no_raise (env : LoaderEnv) (s : LoaderState)
    (h : _validate_lock_order env.validation_enabled s.held _onnx_session_lock
      = .ok ()) :
    ∃ b, (load_onnx_model env s).result = .ok b := by
  unfold load_onnx_model withLock
  dsimp only
  rw [h]
  repeat' split
  all_goals simp_all

lemma load_prosodic_locked_invariant (env : LoaderEnv) (s1 : LoaderState) :
    (load_prosodic_locked env s1).state.prosodic_model.isSome →
    (load_prosodic_locked env s1).state.onnx_session.isSome := by
  have hslots := fun s => load_onnx_other_slots env s
  have htrue := fun s => load_onnx_ok_true_some env s
  unfold load_prosodic_locked
  dsimp only
  repeat' split
  all_goals intro hp
  all_goals simp_all

lemma load_prosodic_locked_ok_true (env : LoaderEnv) (s1 : LoaderState)
    (h : (load_prosodic_locked env s1).result = .ok true) :
    (load_prosodic_locked env s1).state.prosodic_model.isSome ∧
    (load_prosodic_locked env s1).state.onnx_session.isSome := by
  revert h
  have hslots := fun s => load_onnx_other_slots env s
  have htrue := fun s => load_onnx_ok_true_some env s
  unfold load_prosodic_locked
  dsimp only
  repeat' split
  all_goals intro h
  all_goals simp_all

lemma load_prosodic_locked_ok_false (env : LoaderEnv) (s1 : LoaderState)
    (h : (load_prosodic_locked env s1).result = .ok false) :
    (load_prosodic_locked env s1).state.prosodic_model = none := by
  revert h
  have hslots := fun s => load_onnx_other_slots env s
  unfold load_prosodic_locked
  dsimp only
  repeat' split
  all_goals intro h
  all_goals simp_all [Option.not_isSome_iff_eq_none]

lemma load_prosodic_locked_error_state (env : LoaderEnv) (s1 : LoaderState)
    (e : String) (h : (load_prosodic_locked env s1).result = .error e) :
    (load_prosodic_locked env s1).state.prosodic_model = none := by
  revert h
  have hslots := fun s => load_onnx_other_slots env s
  unfold load_prosodic_locked
  dsimp only
  repeat' split
  all_goals intro h
  all_goals simp_all [Option.not_isSome_iff_eq_none]

lemma load_prosodic_locked_lex (env : LoaderEnv) (s1 : LoaderState) :
    (load_prosodic_locked env s1).state.lexical_model = s1.lexical_model := by
  have hslots := fun s => load_onnx_other_slots env s
  unfold load_prosodic_locked
  dsimp only
  repeat' split
  all_goals simp_all

lemma load_prosodic_locked_onnx_pres (env : LoaderEnv) (s1 : LoaderState)
    (a : Session) (h : s1.onnx_session = some a) :
    (load_prosodic_locked env s1).state.onnx_session = some a := by
  have hpres := fun s => load_onnx_preserves env s a
  unfold load_prosodic_locked
  dsimp only
  repeat' split
  all_goals simp_all

lemma load_prosodic_locked_reset (env : LoaderEnv) (s1 : LoaderState)
    (hp : s1.prosodic_model.isSome) (ho : s1.onnx_session = none) :
    load_prosodic_locked env s1 =
      load_prosodic_locked env { s1 with prosodic_model := none } := by
  unfold load_prosodic_locked
  simp [hp, ho]

lemma load_prosodic_locked_no_raise (env : LoaderEnv) (s1 : LoaderState)
    (h : _validate_lock_order env.validation_enabled s1.held _onnx_session_lock
      = .ok ()) :
    ∃ b, (load_prosodic_locked env s1).result = .ok b := by
  have hnr : ∀ (s2 : LoaderState) (e : String), s2.held = s1.held →
      (load_onnx_model env s2).result ≠ .error e := by
    intro s2 e hh hcontra
    rcases load_onnx_no_raise env s2 (by rw [hh]; exact h) with ⟨b, hb⟩
    rw [hcontra] at hb
    exact absurd hb (by simp)
  unfold load_prosodic_locked
  dsimp only
  repeat' split
  all_goals simp_all

lemma withLock_result_cases (enabled : Bool) (l : OrderedLock) (s : LoaderState)
    (body : LoaderState → LoadOutcome) :
    (∃ e, _validate_lock_order enabled s.held l = .error e ∧
      withLock enabled l s body = ⟨s, .error e, []⟩) ∨
    (_validate_lock_order enabled s.held l = .ok () ∧
      (withLock enabled l s body).result =
        (body { s with held := if enabled then s.held ++ [l] else s.held }).result ∧
      (withLock enabled l s body).state.lexical_model =
        (body { s with held := if enabled then s.held ++ [l] else s.held }).state.lexical_model ∧
      (withLock enabled l s body).state.prosodic_model =
        (body { s with held := if enabled then s.held ++ [l] else s.held }).state.prosodic_model ∧
      (withLock enabled l s body).state.onnx_session =
        (body { s with held := if enabled then s.held ++ [l] else s.held }).state.onnx_session) := by
  unfold withLock
  cases hv : _validate_lock_order enabled s.held l with
  | error e => exact .inl ⟨e, rfl, rfl⟩
  | ok v => cases v; exact .inr ⟨rfl, rfl, rfl, rfl, rfl⟩

lemma validate_lock_order_trivial (enabled : Bool) (held : List OrderedLock)
    (l : OrderedLock) (h : enabled = false ∨ held = []) :
    _validate_lock_order enabled held l = .ok () := by
  rcases h with h | h
  · simp [_validate_lock_order, h]
  · subst h
    cases enabled <;> simp [_validate_lock_order]

lemma load_prosodic_fast_path (env : LoaderEnv) (s : LoaderState)
    (hp : s.prosodic_model.isSome) (ho : s.onnx_session.isSome) :
    load_prosodic_models env s = ⟨s, .ok true, []⟩ := by
  unfold load_prosodic_models
  simp [hp, ho]

lemma load_prosodic_ok_true (env : LoaderEnv) (s : LoaderState)
    (h : (load_prosodic_models env s).result = .ok true) :
    (load_prosodic_models env s).state.prosodic_model.isSome ∧
    (load_prosodic_models env s).state.onnx_session.isSome := by
  unfold load_prosodic_models at h ⊢
  by_cases hfast : (s.prosodic_model.isSome && s.onnx_session.isSome) = true
  · rw [if_pos hfast] at h ⊢
    simpa using hfast
  · rw [if_neg hfast] at h ⊢
    rcases withLock_result_cases env.validation_enabled _prosodic_model_lock s
        (load_prosodic_locked env) with ⟨e, hv, hw⟩ | ⟨hv, hres, hlex, hpros, honnx⟩
    · rw [hw] at h
      exact absurd h (by simp)
    · rw [hres] at h
      rw [hpros, honnx]
      exact load_prosodic_locked_ok_true env _ h

lemma load_prosodic_ok_false (env : LoaderEnv) (s : LoaderState)
    (h : (load_prosodic_models env s).result = .ok false) :
    (load_prosodic_models env s).state.prosodic_model = none := by
  unfold load_prosodic_models at h ⊢
  by_cases hfast : (s.prosodic_model.isSome && s.onnx_session.isSome) = true
  · rw [if_pos hfast] at h
    exact absurd h (by simp)
  · rw [if_neg hfast] at h ⊢
    rcases withLock_result_cases env.validation_enabled _prosodic_model_lock s
        (load_prosodic_locked env) with ⟨e, hv, hw⟩ | ⟨hv, hres, hlex, hpros, honnx⟩
    · rw [hw] at h
      exact absurd h (by simp)
    · rw [hres] at h
      rw [hpros]
      exact load_prosodic_locked_ok_false env _ h

lemma load_prosodic_error_state (env : LoaderEnv) (s : LoaderState) (e : String)
    (h : (load_prosodic_models env s).result = .error e) :
    (load_prosodic_models env s).state = s ∨
    (load_prosodic_models env s).state.prosodic_model = none := by
  unfold load_prosodic_models at h ⊢
  by_cases hfast : (s.prosodic_model.isSome && s.onnx_session.isSome) = true
  · rw [if_pos hfast] at h
    exact absurd h (by simp)
  · rw [if_neg hfast] at h ⊢
    rcases withLock_result_cases env.validation_enabled _prosodic_model_lock s
        (load_prosodic_locked env) with ⟨e', hv, hw⟩ | ⟨hv, hres, hlex, hpros, honnx⟩
    · rw [hw]
      exact .inl rfl
    · rw [hres] at h
      right
      rw [hpros]
      exact load_prosodic_locked_error_state env _ e h

lemma load_prosodic_lex (env : LoaderEnv) (s : LoaderState) :
    (load_prosodic_models env s).state.lexical_model = s.lexical_model := by
  unfold load_prosodic_models
  by_cases hfast : (s.prosodic_model.isSome && s.onnx_session.isSome) = true
  · rw [if_pos hfast]
  · rw [if_neg hfast]
    rcases withLock_result_cases env.validation_enabled _prosodic_model_lock s
        (load_prosodic_locked env) with ⟨e', hv, hw⟩ | ⟨hv, hres, hlex, hpros, honnx⟩
    · rw [hw]
    · rw [hlex, load_prosodic_locked_lex]

lemma load_prosodic_onnx_pres (env : LoaderEnv) (s : LoaderState) (a : Session)
    (h : s.onnx_session = some a) :
    (load_prosodic_models env s).state.onnx_session = some a := by
  unfold load_prosodic_models
  by_cases hfast : (s.prosodic_model.isSome && s.onnx_session.isSome) = true
  · rw [if_pos hfast]
    exact h
  · rw [if_neg hfast]
    rcases withLock_result_cases env.validation_enabled _prosodic_model_lock s
        (load_prosodic_locked env) with ⟨e', hv, hw⟩ | ⟨hv, hres, hlex, hpros, honnx⟩
    · rw [hw]
      exact h
    · rw [honnx]
      exact load_prosodic_locked_onnx_pres env _ a h

lemma load_prosodic_no_raise (env : LoaderEnv) (s : LoaderState)
    (h : env.validation_enabled = false ∨ s.held = []) :
    ∃ b, (load_prosodic_models env s).result = .ok b := by
  unfold load_prosodic_models
  by_cases hfast : (s.prosodic_model.isSome && s.onnx_session.isSome) = true
  · rw [if_pos hfast]
    exact ⟨true, rfl⟩
  · rw [if_neg hfast]
    rcases withLock_result_cases env.validation_enabled _prosodic_model_lock s
        (load_prosodic_locked env) with ⟨e', hv, hw⟩ | ⟨hv, hres, hlex, hpros, honnx⟩
    · rw [validate_lock_order_trivial env.validation_enabled s.held
        _prosodic_model_lock h] at hv
      exact absurd hv (by simp)
    · rw [hres]
      apply load_prosodic_locked_no_raise
      rcases h with h | h
      · exact validate_lock_order_trivial _ _ _ (.inl h)
      · rw [h]
        cases env.validation_enabled
        · exact validate_lock_order_trivial _ _ _ (.inl rfl)
        · rfl

lemma runOp_consistent (op : LoaderOp) (env : LoaderEnv) (s : LoaderState)
    (h : Consistent s) : Consistent (runOp op env s) := by
  cases op with
  | lexOp =>
      intro hp
      show (load_lexical_model env s).state.onnx_session.isSome
      rw [(load_lexical_other_slots env s).2]
      apply h
      rw [← (load_lexical_other_slots env s).1]
      exact hp
  | onnxOp =>
      intro hp
      show (load_onnx_model env s).state.onnx_session.isSome
      have hp' : (load_onnx_model env s).state.prosodic_model.isSome := hp
      rw [(load_onnx_other_slots env s).2] at hp'
      rcases Option.isSome_iff_exists.1 (h hp') with ⟨a, ha⟩
      rw [load_onnx_preserves env s a ha]
      rfl
  | prosOp =>
      intro hp
      show (load_prosodic_models env s).state.onnx_session.isSome
      have hp' : (load_prosodic_models env s).state.prosodic_model.isSome := hp
      cases hres : (load_prosodic_models env s).result with
      | ok b =>
          cases b with
          | true => exact (load_prosodic_ok_true env s hres).2
          | false =>
              rw [load_prosodic_ok_false env s hres] at hp'
              exact absurd hp' (by simp)
      | error e =>
          rcases load_prosodic_error_state env s e hres with hst | hnone
          · rw [hst]
            apply h
            rw [hst] at hp'
            exact hp'
          · rw [hnone] at hp'
            exact absurd hp' (by simp)

lemma reachable_consistent {s : LoaderState} (h : ReachableL s) : Consistent s := by
  induction h with
  | init => intro hp; exact absurd hp (by simp [initLoaderState])
  | step op env hr ih => exact runOp_consistent op env _ ih

/- Claim theorems, witnesses and counterexamples. -/

/-- C1: RestrictedUnpickler.find_class checks the deny-list first — a name in BLOCKED_CLASS_NAMES raises an UnpicklingError even when the module is in the allow-list; otherwise resolution delegates to the default resolution exactly when the module is in the frozen TRUSTED_MODULES allow-list, and every module outside the allow-list raises the untrusted-module-blocked UnpicklingError. -/
theorem find_class_deny_then_allow (module name : String) :
    (name ∈ BLOCKED_CLASS_NAMES →
      find_class module name = .error (untrustedBlockedMsg module name)) ∧
    (name ∉ BLOCKED_CLASS_NAMES →
      (module ∈ TRUSTED_MODULES →
        find_class module name = .ok (.delegated module name)) ∧
      (module ∉ TRUSTED_MODULES →
        find_class module name = .error (untrustedBlockedMsg module name))) := by
  refine ⟨fun h => ?_, fun h => ⟨fun hm => ?_, fun hm => ?_⟩⟩
  · simp [find_class, List.elem_iff, h]
  · simp [find_class, List.elem_iff, h, hm]
  · simp [find_class, List.elem_iff, h, hm]

/-- Witness for C1 at the concrete pairs (builtins, eval), (sklearn.pipeline, Pipeline) and (os, system). -/
theorem find_class_witness :
    find_class "builtins" "eval" = .error (untrustedBlockedMsg "builtins" "eval") ∧
    find_class "sklearn.pipeline" "Pipeline" =
      .ok (.delegated "sklearn.pipeline" "Pipeline") ∧
    find_class "os" "system" = .error (untrustedBlockedMsg "os" "system") :=
  ⟨(find_class_deny_then_allow "builtins" "eval").1 (by decide),
   ((find_class_deny_then_allow "sklearn.pipeline" "Pipeline").2 (by decide)).1 (by decide),
   ((find_class_deny_then_allow "os" "system").2 (by decide)).2 (by decide)⟩

/-- C2 counterexample: when the loader call itself raises — which this file
proves the real loader does in development mode from a thread holding the
higher-priority ONNX session lock — both facades propagate the
LockOrderingError instead of returning a pair, because the load_X() calls in
inference.py sit outside the try/except blocks; this refutes the claim that
lexical_predict and prosodic_predict never raise. -/
theorem predict_raises_on_loader_lock_violation :
    lexical_predict c2RaisingLexEnv (.str "hi") =
      .error (lockOrderingErrorMsg _onnx_session_lock _lexical_model_lock) ∧
    prosodic_predict c2RaisingProsEnv (.arr [768]) =
      .error (lockOrderingErrorMsg _onnx_session_lock _prosodic_model_lock) ∧
    (load_lexical_model cexEnv cexHeldState).result =
      .error (lockOrderingErrorMsg _onnx_session_lock _lexical_model_lock) ∧
    (load_prosodic_models cexEnv cexHeldState).result =
      .error (lockOrderingErrorMsg _onnx_session_lock _prosodic_model_lock) :=
  ⟨rfl, rfl, rfl, rfl⟩

/-- C2 amended: the only exception lexical_predict or prosodic_predict can
propagate is one raised by the loader call itself (the load_X() calls are
outside the try/except); a non-string lexical input returns the fallback even
then, its isinstance check preceding the loader call.  Whenever the loader
call returns a Bool — in particular always in production mode or when the
calling thread holds no locks — the facades never raise and return either
the neutral fallback (0.5, false) or a real prediction (p, true) with p in
the unit interval; the fallback is returned whenever the model is not loaded
or absent, the input is malformed (non-string or empty-after-strip text,
non-ndarray or non-(768,)-shaped embedding), predict_proba raises or returns
a shape other than (1, 2), or the extracted class-1 probability lies outside
the unit interval; on success the returned pair is (probability, true). -/
theorem predict_neutral_fallback_contract (lenv : LexicalEnv) (penv : ProsodicEnv)
    (t : TextInput) (e : EmbeddingInput) :
    (∀ err, lexical_predict lenv t = .error err → lenv.load_result = .error err) ∧
    (∀ err, prosodic_predict penv e = .error err → penv.load_result = .error err) ∧
    (lexical_predict lenv .nonStr = .ok ((1 : ℚ) / 2, false)) ∧
    (∀ b, lenv.load_result = .ok b →
      (lexical_predict lenv t = .ok ((1 : ℚ) / 2, false) ∨
        ∃ p : ℚ, 0 ≤ p ∧ p ≤ 1 ∧ lexical_predict lenv t = .ok (p, true)) ∧
      ((b && lenv.model_present) = false →
        lexical_predict lenv t = .ok ((1 : ℚ) / 2, false)) ∧
      (∀ s, pyStrip s = "" →
        lexical_predict lenv (.str s) = .ok ((1 : ℚ) / 2, false)) ∧
      (∀ s, lenv.predict_proba (pyStrip s) = .raises →
        lexical_predict lenv (.str s) = .ok ((1 : ℚ) / 2, false)) ∧
      (∀ s sh ent, lenv.predict_proba (pyStrip s) = .returns sh ent →
        sh ≠ (1, 2) → lexical_predict lenv (.str s) = .ok ((1 : ℚ) / 2, false)) ∧
      (∀ s p, lenv.predict_proba (pyStrip s) = .returns (1, 2) (some p) →
        ¬(0 ≤ p ∧ p ≤ 1) →
        lexical_predict lenv (.str s) = .ok ((1 : ℚ) / 2, false)) ∧
      (∀ s p, (b && lenv.model_present) = true → pyStrip s ≠ "" →
        lenv.predict_proba (pyStrip s) = .returns (1, 2) (some p) →
        0 ≤ p → p ≤ 1 → lexical_predict lenv (.str s) = .ok (p, true))) ∧
    (∀ b, penv.load_result = .ok b →
      (prosodic_predict penv e = .ok ((1 : ℚ) / 2, false) ∨
        ∃ p : ℚ, 0 ≤ p ∧ p ≤ 1 ∧ prosodic_predict penv e = .ok (p, true)) ∧
      ((b && penv.model_present) = false →
        prosodic_predict penv e = .ok ((1 : ℚ) / 2, false)) ∧
      (prosodic_predict penv .nonArr = .ok ((1 : ℚ) / 2, false)) ∧
      (∀ sh, sh ≠ [768] →
        prosodic_predict penv (.arr sh) = .ok ((1 : ℚ) / 2, false)) ∧
      (penv.predict_proba = .raises →
        prosodic_predict penv e = .ok ((1 : ℚ) / 2, false)) ∧
      (∀ psh ent, penv.predict_proba = .returns psh ent → psh ≠ (1, 2) →
        prosodic_predict penv e = .ok ((1 : ℚ) / 2, false)) ∧
      (∀ p, penv.predict_proba = .returns (1, 2) (some p) → ¬(0 ≤ p ∧ p ≤ 1) →
        prosodic_predict penv e = .ok ((1 : ℚ) / 2, false)) ∧
      (∀ p, (b && penv.model_present) = true →
        penv.predict_proba = .returns (1, 2) (some p) → 0 ≤ p → p ≤ 1 →
        prosodic_predict penv (.arr [768]) = .ok (p, true))) := by
  refine ⟨?_, ?_, by simp [lexical_predict], ?_, ?_⟩
  · intro err herr
    cases hl : lenv.load_result with
    | error e2 =>
        rcases t with s | _
        · unfold lexical_predict at herr
          rw [hl] at herr
          simpa using herr
        · unfold lexical_predict at herr
          exact absurd herr (by simp)
    | ok b =>
        rcases lexical_predict_total lenv t b hl with hok | ⟨p, _, _, hok⟩ <;>
          rw [hok] at herr <;> exact absurd herr (by simp)
  · intro err herr
    cases hl : penv.load_result with
    | error e2 =>
        unfold prosodic_predict at herr
        rw [hl] at herr
        simpa using herr
    | ok b =>
        rcases prosodic_predict_total penv e b hl with hok | ⟨p, _, _, hok⟩ <;>
          rw [hok] at herr <;> exact absurd herr (by simp)
  · intro b hload
    refine ⟨lexical_predict_total lenv t b hload, ?_, ?_, ?_, ?_, ?_, ?_⟩
    · intro h
      rcases t with s | _ <;> simp [lexical_predict, hload, h]
    · intro s he
      cases h : (b && lenv.model_present) <;>
        simp [lexical_predict, hload, h, he]
    · intro s hp
      cases h : (b && lenv.model_present) <;>
        by_cases he : pyStrip s = "" <;> simp [lexical_predict, hload, h, he, hp]
    · intro s sh ent hp hsh
      cases h : (b && lenv.model_present) <;>
        by_cases he : pyStrip s = "" <;>
          simp [lexical_predict, hload, h, he, hp, hsh]
    · intro s p hp hr
      cases h : (b && lenv.model_present) <;>
        by_cases he : pyStrip s = "" <;>
          simp [lexical_predict, hload, h, he, hp, hr]
    · intro s p h he hp h0 h1
      simp [lexical_predict, hload, h, he, hp, h0, h1]
  · intro b hload
    refine ⟨prosodic_predict_total penv e b hload, ?_, ?_, ?_, ?_, ?_, ?_, ?_⟩
    · intro h
      rcases e with sh | _ <;> simp [prosodic_predict, hload, h]
    · cases h : (b && penv.model_present) <;> simp [prosodic_predict, hload, h]
    · intro sh hsh
      cases h : (b && penv.model_present) <;>
        simp [prosodic_predict, hload, h, hsh]
    · intro hp
      rcases e with sh | _
      · cases h : (b && penv.model_present) <;>
          by_cases hsh : sh = [768] <;> simp [prosodic_predict, hload, h, hp, hsh]
      · cases h : (b && penv.model_present) <;>
          simp [prosodic_predict, hload, h, hp]
    · intro psh ent hp hpsh
      rcases e with sh | _
      · cases h : (b && penv.model_present) <;>
          by_cases hsh : sh = [768] <;>
            simp [prosodic_predict, hload, h, hp, hpsh, hsh]
      · cases h : (b && penv.model_present) <;>
          simp [prosodic_predict, hload, h, hp]
    · intro p hp hr
      rcases e with sh | _
      · cases h : (b && penv.model_present) <;>
          by_cases hsh : sh = [768] <;>
            simp [prosodic_predict, hload, h, hp, hr, hsh]
      · cases h : (b && penv.model_present) <;>
          simp [prosodic_predict, hload, h, hp]
    · intro p h hp h0 h1
      simp [prosodic_predict, hload, h, hp, h0, h1]

/-- Witness for C2 amended: with the loader returning false, both facades
fall back to (0.5, false). -/
theorem predict_neutral_fallback_contract_witness :
    lexical_predict c2LexEnvDown (.str "so sarcastic") =
      .ok ((1 : ℚ) / 2, false) ∧
    prosodic_predict c2ProsEnvDown (.arr [768]) = .ok ((1 : ℚ) / 2, false) :=
  ⟨((predict_neutral_fallback_contract c2LexEnvDown c2ProsEnvDown
      (.str "so sarcastic") (.arr [768])).2.2.2.1 false rfl).2.1 rfl,
   ((predict_neutral_fallback_contract c2LexEnvDown c2ProsEnvDown
      (.str "so sarcastic") (.arr [768])).2.2.2.2 false rfl).2.1 rfl⟩

/-- C3: when load_prosodic_models returns true, both the prosodic classifier slot and the ONNX session slot are non-null; on every returned result a published classifier implies a published session (a classifier reference is never published while the encoder reference is null); the lock-protected body at an inconsistent entry state (classifier loaded, session missing) resets the classifier slot and behaves exactly as a full reload from the reset state; and when the classifier-lock acquisition does not itself raise, the whole function on an inconsistent state equals the function on the reset state. -/
theorem load_prosodic_models_consistency (env : LoaderEnv) (s : LoaderState) :
    ((load_prosodic_models env s).result = .ok true →
      (load_prosodic_models env s).state.prosodic_model.isSome ∧
      (load_prosodic_models env s).state.onnx_session.isSome) ∧
    (∀ b, (load_prosodic_models env s).result = .ok b →
      (load_prosodic_models env s).state.prosodic_model.isSome →
      (load_prosodic_models env s).state.onnx_session.isSome) ∧
    (∀ s1 : LoaderState, s1.prosodic_model.isSome → s1.onnx_session = none →
      load_prosodic_locked env s1 =
        load_prosodic_locked env { s1 with prosodic_model := none }) ∧
    (s.prosodic_model.isSome → s.onnx_session = none →
      _validate_lock_order env.validation_enabled s.held _prosodic_model_lock
        = .ok () →
      load_prosodic_models env s =
        load_prosodic_models env { s with prosodic_model := none }) := by
  refine ⟨load_prosodic_ok_true env s, ?_,
    fun s1 => load_prosodic_locked_reset env s1, ?_⟩
  · intro b hres hp
    cases b with
    | true => exact (load_prosodic_ok_true env s hres).2
    | false =>
        rw [load_prosodic_ok_false env s hres] at hp
        exact absurd hp (by simp)
  · intro hp ho hv
    unfold load_prosodic_models
    rw [if_neg (by simp [ho]), if_neg (by simp)]
    unfold withLock
    rw [hv]
    have hbody := load_prosodic_locked_reset env
      { s with held := if env.validation_enabled then
          s.held ++ [_prosodic_model_lock] else s.held }
      (by simpa using hp) (by simpa using ho)
    dsimp only
    rw [hbody]

/-- Witness for C3: from the inconsistent state (classifier loaded, session missing), the call equals the call from the reset state. -/
theorem load_prosodic_models_consistency_witness :
    load_prosodic_models offEnv ⟨none, some ⟨1⟩, none, []⟩ =
      load_prosodic_models offEnv
        { (⟨none, some ⟨1⟩, none, []⟩ : LoaderState) with prosodic_model := none } :=
  (load_prosodic_models_consistency offEnv ⟨none, some ⟨1⟩, none, []⟩).2.2.2
    rfl rfl rfl

/-- C4 counterexample: with lock-ordering validation enabled (the development default), calling load_lexical_model from a thread that already holds the higher-priority ONNX session lock propagates a LockOrderingError out of the function instead of returning a Bool, because the with-lock acquisition is outside the try/except blocks. -/
theorem load_lexical_model_raises_lock_ordering :
    (load_lexical_model cexEnv cexHeldState).result =
      .error (lockOrderingErrorMsg _onnx_session_lock _lexical_model_lock) := rfl

/-- C4 amended: provided ordering validation is disabled or the calling thread holds no locks, no exception propagates out of load_lexical_model, load_onnx_model or load_prosodic_models: each returns a Bool, every failure during the load attempt having been converted to a false return. -/
theorem load_functions_no_raise (env : LoaderEnv) (s : LoaderState)
    (h : env.validation_enabled = false ∨ s.held = []) :
    (∃ b, (load_lexical_model env s).result = .ok b) ∧
    (∃ b, (load_onnx_model env s).result = .ok b) ∧
    (∃ b, (load_prosodic_models env s).result = .ok b) :=
  ⟨load_lexical_no_raise env s (validate_lock_order_trivial _ _ _ h),
   load_onnx_no_raise env s (validate_lock_order_trivial _ _ _ h),
   load_prosodic_no_raise env s h⟩

/-- Witness for C4 amended at the initial state with no locks held. -/
theorem load_functions_no_raise_witness :
    ∃ b, (load_prosodic_models offEnv initLoaderState).result = .ok b :=
  (load_functions_no_raise offEnv initLoaderState (Or.inr rfl)).2.2

/-- C5 counterexample: the relative filepath a../b contains the substring ../ yet passes path validation and proceeds to open the file (the source deliberately allows filenames merely containing two dots), refuting the claim that every filepath containing ../ anywhere raises before the file is opened. -/
theorem secure_load_pickle_allows_dotdot_filename :
    pyIn "../" "a../b" = true ∧
    secure_load_pickle c5PathEnv c5GoodFs "a../b" false = .ok ⟨7⟩ :=
  ⟨by decide, rfl⟩

/-- C5 amended: with path validation enabled, secure_load_pickle raises before the file is opened — the outcome is the validation error for every file oracle — for every filepath containing an infix slash-dotdot-slash, starting with dotdot-slash or dotdot-backslash, containing an infix backslash-dotdot-backslash, or equal to dotdot, and for every absolute filepath whose symlink-resolved form is not contained, by exact path-segment containment, in the expected model-storage directory. -/
theorem secure_load_pickle_path_validation (env : PathEnv)
    (fs : String → Except PyExn Artifact) (filepath : String) :
    (has_traversal filepath = true → filepath ≠ "" →
      secure_load_pickle env fs filepath false =
        .error (.valueError "Invalid filepath: path traversal detected")) ∧
    (has_traversal filepath = false → pyStartsWith filepath "/" = true →
      commonComponents (pathComponents (env.realpath filepath))
          (pathComponents env.expected_dir) ≠ pathComponents env.expected_dir →
      filepath ≠ "" →
      secure_load_pickle env fs filepath false =
        .error (.valueError "Invalid filepath: path outside allowed directory")) := by
  constructor
  · intro ht hne
    simp [secure_load_pickle, validate_model_path, ht, hne]
  · intro ht habs hcc hne
    simp [secure_load_pickle, validate_model_path, ht, habs, hcc, hne]

/-- Witness for C5 amended at a traversal path and at an absolute path outside the model directory. -/
theorem secure_load_pickle_path_validation_witness :
    secure_load_pickle c5PathEnv c5GoodFs "/../x" false =
      .error (.valueError "Invalid filepath: path traversal detected") ∧
    secure_load_pickle c5PathEnv c5GoodFs "/etc/passwd" false =
      .error (.valueError "Invalid filepath: path outside allowed directory") :=
  ⟨(secure_load_pickle_path_validation c5PathEnv c5GoodFs "/../x").1
      (by decide) (by decide),
   (secure_load_pickle_path_validation c5PathEnv c5GoodFs "/etc/passwd").2
      (by decide) (by decide) (by decide) (by decide)⟩

/-- C6: from every state reachable from process start, each of the three resource slots is monotonic — a slot holding a loaded value keeps exactly that value across any further load call, so the unloaded-to-loaded transition happens at most once — and a load call that returns false leaves its own slot unloaded (none), so a subsequent call may retry. -/
theorem loader_slots_monotonic (s : LoaderState) (hs : ReachableL s)
    (op : LoaderOp) (env : LoaderEnv) :
    (∀ a, s.lexical_model = some a → (runOp op env s).lexical_model = some a) ∧
    (∀ a, s.prosodic_model = some a → (runOp op env s).prosodic_model = some a) ∧
    (∀ a, s.onnx_session = some a → (runOp op env s).onnx_session = some a) ∧
    ((load_lexical_model env s).result = .ok false →
      (load_lexical_model env s).state.lexical_model = none) ∧
    ((load_onnx_model env s).result = .ok false →
      (load_onnx_model env s).state.onnx_session = none) ∧
    ((load_prosodic_models env s).result = .ok false →
      (load_prosodic_models env s).state.prosodic_model = none) := by
  refine ⟨?_, ?_, ?_, load_lexical_ok_false_none env s,
    load_onnx_ok_false_none env s, load_prosodic_ok_false env s⟩
  · intro a ha
    cases op with
    | lexOp =>
        show (load_lexical_model env s).state.lexical_model = some a
        exact load_lexical_preserves env s a ha
    | onnxOp =>
        show (load_onnx_model env s).state.lexical_model = some a
        rw [(load_onnx_other_slots env s).1]
        exact ha
    | prosOp =>
        show (load_prosodic_models env s).state.lexical_model = some a
        rw [load_prosodic_lex env s]
        exact ha
  · intro a ha
    cases op with
    | lexOp =>
        show (load_lexical_model env s).state.prosodic_model = some a
        rw [(load_lexical_other_slots env s).1]
        exact ha
    | onnxOp =>
        show (load_onnx_model env s).state.prosodic_model = some a
        rw [(load_onnx_other_slots env s).2]
        exact ha
    | prosOp =>
        show (load_prosodic_models env s).state.prosodic_model = some a
        have ho : s.onnx_session.isSome := reachable_consistent hs (by simp [ha])
        rw [load_prosodic_fast_path env s (by simp [ha]) ho]
        exact ha
  · intro a ha
    cases op with
    | lexOp =>
        show (load_lexical_model env s).state.onnx_session = some a
        rw [(load_lexical_other_slots env s).2]
        exact ha
    | onnxOp =>
        show (load_onnx_model env s).state.onnx_session = some a
        exact load_onnx_preserves env s a ha
    | prosOp =>
        show (load_prosodic_models env s).state.onnx_session = some a
        exact load_prosodic_onnx_pres env s a ha

/-- Witness for C6: a failed lexical load from the initial state leaves the lexical slot unloaded. -/
theorem loader_slots_monotonic_witness :
    (load_lexical_model offEnv initLoaderState).state.lexical_model = none :=
  (loader_slots_monotonic initLoaderState ReachableL.init .lexOp offEnv).2.2.2.1 rfl

/-- C7: with ordering validation enabled, along every trace of acquire and release events on the three module-level locks in which acquiring an already-held underlying lock never reports success, the thread-local held-lock stack is always in strictly increasing priority order; a successful validated acquire appends a lock of strictly greater priority than every lock already held; and releasing the most recently acquired held lock pops the top of the stack, so releases matching acquisition order are LIFO pops. -/
theorem ordered_lock_stack_invariant (events : List LockEvent)
    (hsys : ∀ e ∈ events, eventLock e ∈ systemLocks)
    (hnr : nonReentrant [] events = true) :
    List.Chain' (fun a b => a.order < b.order) (runTrace [] events) ∧
    (∀ l : OrderedLock, l ∈ systemLocks → l ∉ runTrace [] events →
      ∀ r, acquire true (runTrace [] events) l true = .ok r →
        (∀ x ∈ runTrace [] events, x.order < l.order) ∧
        r = (runTrace [] events ++ [l], true)) ∧
    (∀ l : OrderedLock, (runTrace [] events).getLast? = some l →
      release true (runTrace [] events) l = (runTrace [] events).dropLast) := by
  have hg : GoodStack (runTrace [] events) :=
    runTrace_good events [] ⟨by simp, List.chain'_nil⟩ hsys hnr
  refine ⟨hg.2, ?_, ?_⟩
  · intro l hl hnotin r hacq
    have hvo := acquire_ok_validate hacq
    have hbound := validate_ok_bound hvo
    have hstrict : ∀ x ∈ runTrace [] events, x.order < l.order := by
      intro x hx
      rcases lt_or_eq_of_le (hbound x hx) with hlt | heq
      · exact hlt
      · exact absurd (systemLocks_order_inj x (hg.1 x hx) l hl heq)
          (fun hxl => hnotin (hxl ▸ hx))
    refine ⟨hstrict, ?_⟩
    unfold acquire at hacq
    rw [hvo] at hacq
    simpa using hacq.symm
  · intro l hlast
    exact release_top_pop hg.2 hlast

/-- Witness for C7 on the sanctioned prosodic-then-onnx trace. -/
theorem ordered_lock_stack_invariant_witness :
    List.Chain' (fun a b => a.order < b.order) (runTrace [] c7Events) :=
  (ordered_lock_stack_invariant c7Events (by decide) (by decide)).1

/-- C8: with ordering validation enabled, when the thread-local held list contains a lock of numerically greater priority than the lock being acquired, acquire raises a LockOrderingError immediately: the result is the error for every underlying-acquisition outcome (the underlying primitive is never consulted), the held stack is left unchanged, the message contains the held lock name and priority, the requested lock name and priority, and the full canonical ordering text; and in the scenario where the inner acquisition is the only violation, the held set is empty again after the exception unwinds through the outer with-block. -/
theorem lock_ordering_violation_raises (held : List OrderedLock) (l h0 : OrderedLock)
    (u : Bool) (hfind : held.find? (fun h => decide (h.order > l.order)) = some h0) :
    acquire true held l u = .error (lockOrderingErrorMsg h0 l) ∧
    (∀ u' : Bool, acquire true held l u' = .error (lockOrderingErrorMsg h0 l)) ∧
    lockStep held (.acq l u) = held ∧
    (∃ s1 s2 s3 s4 s5 s6 : String,
      lockOrderingErrorMsg h0 l =
        s1 ++ h0.name ++ s2 ++ toString h0.order ++ s3 ++ l.name ++ s4 ++
          toString l.order ++ s5 ++ canonicalLockOrderText ++ s6) ∧
    runTrace []
      [.acq _onnx_session_lock true, .acq _prosodic_model_lock true,
       .rel _onnx_session_lock] = [] := by
  have hval : ∀ u' : Bool,
      acquire true held l u' = .error (lockOrderingErrorMsg h0 l) := by
    intro u'
    simp [acquire, _validate_lock_order, hfind]
  refine ⟨hval u, hval, ?_, ?_, by decide⟩
  · simp [lockStep, hval u]
  · exact ⟨lockErrPart1, lockErrPart2, lockErrPart3, lockErrPart2, lockErrPart4,
      lockErrPart5, rfl⟩

/-- Witness for C8: acquiring the prosodic lock while holding the ONNX session lock raises the violation error. -/
theorem lock_ordering_violation_raises_witness :
    acquire true [_onnx_session_lock] _prosodic_model_lock true =
      .error (lockOrderingErrorMsg _onnx_session_lock _prosodic_model_lock) :=
  (lock_ordering_violation_raises [_onnx_session_lock] _prosodic_model_lock
    _onnx_session_lock true (by decide)).1

/-- C9: once a resource slot is published, its load function returns true immediately with no observable events — no lock acquisition and no expensive load work; and after any call that returns true, every subsequent call (under any environment) returns true with an empty event list, so the expensive load executes at most once per resource once a load has succeeded (sequential rendering of the concurrent at-most-once contract). -/
theorem load_fast_path_and_at_most_once (env env2 : LoaderEnv) (s : LoaderState) :
    (s.lexical_model.isSome → load_lexical_model env s = ⟨s, .ok true, []⟩) ∧
    (s.onnx_session.isSome → load_onnx_model env s = ⟨s, .ok true, []⟩) ∧
    (s.prosodic_model.isSome → s.onnx_session.isSome →
      load_prosodic_models env s = ⟨s, .ok true, []⟩) ∧
    (∀ s' evs, load_lexical_model env s = ⟨s', .ok true, evs⟩ →
      load_lexical_model env2 s' = ⟨s', .ok true, []⟩) ∧
    (∀ s' evs, load_onnx_model env s = ⟨s', .ok true, evs⟩ →
      load_onnx_model env2 s' = ⟨s', .ok true, []⟩) ∧
    (∀ s' evs, load_prosodic_models env s = ⟨s', .ok true, evs⟩ →
      load_prosodic_models env2 s' = ⟨s', .ok true, []⟩) := by
  refine ⟨load_lexical_fast_path env s, load_onnx_fast_path env s,
    load_prosodic_fast_path env s, ?_, ?_, ?_⟩
  · intro s' evs hload
    have hres : (load_lexical_model env s).result = .ok true := by rw [hload]
    have hsome := load_lexical_ok_true_some env s hres
    rw [hload] at hsome
    exact load_lexical_fast_path env2 s' hsome
  · intro s' evs hload
    have hres : (load_onnx_model env s).result = .ok true := by rw [hload]
    have hsome := load_onnx_ok_true_some env s hres
    rw [hload] at hsome
    exact load_onnx_fast_path env2 s' hsome
  · intro s' evs hload
    have hres : (load_prosodic_models env s).result = .ok true := by rw [hload]
    have hsome := load_prosodic_ok_true env s hres
    rw [hload] at hsome
    exact load_prosodic_fast_path env2 s' hsome.1 hsome.2

/-- Witness for C9: with the lexical slot published, the load returns true with no events. -/
theorem load_fast_path_and_at_most_once_witness :
    load_lexical_model offEnv ⟨some ⟨1⟩, none, none, []⟩ =
      ⟨⟨some ⟨1⟩, none, none, []⟩, .ok true, []⟩ :=
  (load_fast_path_and_at_most_once offEnv offEnv ⟨some ⟨1⟩, none, none, []⟩).1 rfl

/-- C10 counterexample: an object exposing both predict_proba and predict whose steps attribute is malformed (not a sized iterable of pairs) makes validate_sklearn_model raise a TypeError from the debug-logging f-string that evaluates len of the steps attribute, refuting the claim that the function never raises on every input object. -/
theorem validate_sklearn_model_raises_on_malformed_steps :
    stepsMalformedObj.has_predict_proba = true ∧
    stepsMalformedObj.has_predict = true ∧
    validate_sklearn_model stepsMalformedObj = .error "TypeError" :=
  ⟨rfl, rfl, rfl⟩

/-- C10 amended: validate_sklearn_model returns true exactly when the object exposes both the probability-prediction and the hard-label prediction entry points (a duck-typed capability check), returning false on any missing capability; it never raises provided that, when both capabilities are present, any steps attribute is a proper list of pairs. -/
theorem validate_sklearn_model_capability_check (m : PyModelObj)
    (h : m.steps = .malformed → ¬(m.has_predict_proba = true ∧ m.has_predict = true)) :
    validate_sklearn_model m = .ok (m.has_predict_proba && m.has_predict) := by
  rcases m with ⟨pp, p, st⟩
  cases pp <;> cases p <;> cases st <;> simp_all [validate_sklearn_model]

/-- Witness for C10 amended at an object with both capabilities and no steps attribute. -/
theorem validate_sklearn_model_capability_check_witness :
    validate_sklearn_model ⟨true, true, .absent⟩ = .ok true :=
  validate_sklearn_model_capability_check ⟨true, true, .absent⟩ (by simp)

end SarcasmLoader
